import Mathlib

/-!
Verification development for the flowfields repository (src/src/main.rs).

The grid model and the propagation engine are embedded shallowly:
`Vec<Vec<Cell>>` becomes `List (List Cell)`, in-place mutation becomes
functional update, and the recursive `populate_cells` is given an explicit
fuel argument (the Rust recursion is unbounded; fuel sufficiency for
well-formed grids is proved below, so on every in-bounds input the fueled
function agrees with the source recursion).  Out-of-bounds indexing, which
panics in Rust, is modelled by a default cell; every theorem about cell
contents restricts to in-bounds coordinates.
-/

/-- Mirrors `enum CellType { Barrier, Inactive, Active, Source }`. -/
inductive CellType where
  | Barrier
  | Inactive
  | Active
  | Source
deriving DecidableEq, Repr

instance : Inhabited CellType := ⟨CellType.Inactive⟩

/-- Mirrors `struct Cell`.  `cell_number` is the distance label (`Option<i32>`
modelled as `Option Int`). -/
structure Cell where
  cell_type : CellType
  cell_number : Option Int
  x_position : Nat
  y_position : Nat
  highlighted : Bool
deriving DecidableEq, Repr

/-- Mirrors `Cell::default()` from the derived `Default` in the source. -/
instance : Inhabited Cell :=
  ⟨{ cell_type := CellType.Inactive, cell_number := none,
     x_position := 0, y_position := 0, highlighted := false }⟩

/-- Mirrors `struct Grid { grid: Vec<Vec<Cell>>, row_count_y, column_count_x }`.
`grid` is indexed `grid[row_y][col_x]` exactly as in the source. -/
structure Grid where
  grid : List (List Cell)
  row_count_y : Nat
  column_count_x : Nat
deriving DecidableEq, Repr

namespace Grid

/-- Mirrors `Grid::new`: all cells default except their fixed positions. -/
def new (row_count column_count : Nat) : Grid :=
  { grid := (List.range row_count).map (fun y =>
      (List.range column_count).map (fun x =>
        { cell_type := CellType.Inactive, cell_number := none,
          x_position := x, y_position := y, highlighted := false })),
    row_count_y := row_count,
    column_count_x := column_count }

/-- Mirrors `Grid::get_cell_from_coordinate` (`&mut self.grid[row_y][col_x]`);
out-of-bounds access, a panic in Rust, yields the default cell here. -/
def get_cell_from_coordinate (g : Grid) (col_x row_y : Nat) : Cell :=
  (g.grid.getD row_y []).getD col_x default

/-- Mirrors `Grid::get_neighbor_coordinates`: left, up, right, down, each
guarded by the bounds check from the source. -/
def get_neighbor_coordinates (g : Grid) (target : Cell) : List (Nat × Nat) :=
  (if 0 < target.x_position then [(target.x_position - 1, target.y_position)] else []) ++
  (if 0 < target.y_position then [(target.x_position, target.y_position - 1)] else []) ++
  (if target.x_position + 1 < g.column_count_x then [(target.x_position + 1, target.y_position)] else []) ++
  (if target.y_position + 1 < g.row_count_y then [(target.x_position, target.y_position + 1)] else [])

/-- Functional form of the mutation `cell.cell_number = Some(n)` performed
through `get_cell_from_coordinate`. -/
def setCellNumber (g : Grid) (col_x row_y : Nat) (n : Int) : Grid :=
  { g with grid := g.grid.set row_y ((g.grid.getD row_y []).set col_x
      { (g.grid.getD row_y []).getD col_x default with cell_number := some n }) }

/-- Functional form of the mutation `cell.cell_type = t` performed by the
edit-event handling in `main`. -/
def setCellType (g : Grid) (col_x row_y : Nat) (t : CellType) : Grid :=
  { g with grid := g.grid.set row_y ((g.grid.getD row_y []).set col_x
      { (g.grid.getD row_y []).getD col_x default with cell_type := t }) }

end Grid

/-- Mirrors the inner loop of `populate_cells` that pushes each neighbor
coordinate onto both `new_unpopulated_coordinates` and `processed_cells`
unless one of them already contains it. -/
def pushNeighbors (nbrs : List (Nat × Nat)) (st : List (Nat × Nat) × List (Nat × Nat)) :
    List (Nat × Nat) × List (Nat × Nat) :=
  nbrs.foldl (fun st coord =>
    if coord ∈ st.1 ∨ coord ∈ st.2 then st else (st.1 ++ [coord], st.2 ++ [coord])) st

/-- Mirrors one iteration of the `for &(col_x, row_y) in unpopulated_coordinates`
loop body of `populate_cells`: skip barriers, otherwise write the layer number
and push unseen neighbors.  State is (grid, new_unpopulated, processed). -/
def processCoord (new_cell_number : Int)
    (st : Grid × List (Nat × Nat) × List (Nat × Nat)) (cd : Nat × Nat) :
    Grid × List (Nat × Nat) × List (Nat × Nat) :=
  let cell := st.1.get_cell_from_coordinate cd.1 cd.2
  if cell.cell_type = CellType.Barrier then st
  else
    let g := st.1.setCellNumber cd.1 cd.2 new_cell_number
    let nbrs := g.get_neighbor_coordinates (g.get_cell_from_coordinate cd.1 cd.2)
    let pushed := pushNeighbors nbrs (st.2.1, st.2.2)
    (g, pushed.1, pushed.2)

namespace Grid

/-- Mirrors the recursive `Grid::populate_cells`.  The Rust recursion carries no
fuel; the explicit fuel models it, and fuel sufficiency for well-formed grids is
proved below (the recursion depth is bounded by the number of grid cells). -/
def populate_cells (fuel : Nat) (g : Grid) (unpopulated_coordinates : List (Nat × Nat))
    (new_cell_number : Int) (processed_cells : List (Nat × Nat)) :
    Grid × List (Nat × Nat) :=
  match fuel with
  | 0 => (g, processed_cells)
  | fuel + 1 =>
    let st := unpopulated_coordinates.foldl (processCoord new_cell_number)
      (g, [], processed_cells)
    if st.2.1 = [] then (st.1, st.2.2)
    else populate_cells fuel st.1 st.2.1 (new_cell_number + 1) st.2.2

/-- Mirrors the frontier construction in `Grid::source_cells`: the neighbor
coordinates of every source cell, appended in order. -/
def source_cells_frontier (g : Grid) (source_coordinates : List (Nat × Nat)) :
    List (Nat × Nat) :=
  source_coordinates.foldl (fun acc cd =>
    acc ++ g.get_neighbor_coordinates (g.get_cell_from_coordinate cd.1 cd.2)) []

/-- Mirrors `Grid::source_cells` with a given recursion fuel: build the frontier,
then call `populate_cells(&neighbor_cells, 2, &mut neighbor_cells.clone())`. -/
def source_cells_fueled (g : Grid) (source_coordinates : List (Nat × Nat)) (fuel : Nat) : Grid :=
  (populate_cells fuel g (g.source_cells_frontier source_coordinates) 2
    (g.source_cells_frontier source_coordinates)).1

/-- Mirrors `Grid::source_cells`; the fuel `row_count_y * column_count_x` is
proved sufficient below, so this equals the unbounded Rust recursion on every
well-formed input. -/
def source_cells (g : Grid) (source_coordinates : List (Nat × Nat)) : Grid :=
  g.source_cells_fueled source_coordinates (g.row_count_y * g.column_count_x)

end Grid

/-- Mirrors the right-click handler in `main`: if the cell is a Source, remove
its coordinate from the source list (`retain`) and make it Inactive; otherwise
append the coordinate, set its distance to `Some(1)` and make it a Source. -/
def toggle_source (g : Grid) (source_cells : List (Nat × Nat)) (p : Nat × Nat) :
    Grid × List (Nat × Nat) :=
  match (g.get_cell_from_coordinate p.1 p.2).cell_type with
  | CellType.Source =>
      (g.setCellType p.1 p.2 CellType.Inactive, source_cells.filter (fun x => x ≠ p))
  | _ =>
      ((g.setCellNumber p.1 p.2 1).setCellType p.1 p.2 CellType.Source,
        source_cells ++ [p])

/-- Mirrors the left-click handler in `main`: toggle the cell between Barrier
and Inactive; the source list is not touched by this handler. -/
def toggle_barrier (g : Grid) (source_cells : List (Nat × Nat)) (p : Nat × Nat) :
    Grid × List (Nat × Nat) :=
  match (g.get_cell_from_coordinate p.1 p.2).cell_type with
  | CellType.Barrier => (g.setCellType p.1 p.2 CellType.Inactive, source_cells)
  | _ => (g.setCellType p.1 p.2 CellType.Barrier, source_cells)

/-- In-bounds predicate for a coordinate, `[0, columns) x [0, rows)`. -/
def inB (g : Grid) (c : Nat × Nat) : Prop :=
  c.1 < g.column_count_x ∧ c.2 < g.row_count_y

instance (g : Grid) (c : Nat × Nat) : Decidable (inB g c) := by
  unfold inB; infer_instance

/-- Well-formed grid: the nested lists have the advertised dimensions and every
cell stores its own coordinates, as established by `Grid::new`. -/
def Grid.WF (g : Grid) : Prop :=
  g.grid.length = g.row_count_y ∧
  (∀ y, y < g.row_count_y → (g.grid.getD y []).length = g.column_count_x) ∧
  ∀ y, y < g.row_count_y → ∀ x, x < g.column_count_x →
    (g.get_cell_from_coordinate x y).x_position = x ∧
    (g.get_cell_from_coordinate x y).y_position = y

instance (g : Grid) : Decidable g.WF := by
  unfold Grid.WF; infer_instance

/-- Mathematical 4-directional adjacency of coordinates. -/
def adjacent (a b : Nat × Nat) : Prop :=
  (a.1 = b.1 ∧ (a.2 + 1 = b.2 ∨ b.2 + 1 = a.2)) ∨
  (a.2 = b.2 ∧ (a.1 + 1 = b.1 ∨ b.1 + 1 = a.1))

instance (a b : Nat × Nat) : Decidable (adjacent a b) := by
  unfold adjacent; infer_instance

/-- A 4-directional path of the given hop count from some member of the source
set `S` to a coordinate, every cell after the source being in bounds and not a
Barrier (the spec notion of paths traversing non-barrier cells only). -/
inductive PathTo (g : Grid) (S : List (Nat × Nat)) : Nat × Nat → Nat → Prop where
  | src {c : Nat × Nat} : c ∈ S → PathTo g S c 0
  | step {b c : Nat × Nat} {n : Nat} : PathTo g S b n → adjacent b c →
      c.1 < g.column_count_x → c.2 < g.row_count_y →
      (g.get_cell_from_coordinate c.1 c.2).cell_type ≠ CellType.Barrier →
      PathTo g S c (n + 1)

/-- The coordinate `c` is enqueued at BFS layer `k + 2`: some coordinate with a
path of hop count `k` is adjacent to it. -/
def Enq (g : Grid) (S : List (Nat × Nat)) (k : Nat) (c : Nat × Nat) : Prop :=
  ∃ b, PathTo g S b k ∧ adjacent b c

/-- Two grids with identical dimensions, row lengths, and per-cell
`cell_type`, positions, and `highlighted` flag; only `cell_number` may differ.
This is the frame the propagation engine preserves. -/
def sameSkeleton (g g' : Grid) : Prop :=
  g'.row_count_y = g.row_count_y ∧
  g'.column_count_x = g.column_count_x ∧
  g'.grid.length = g.grid.length ∧
  (∀ y, (g'.grid.getD y []).length = (g.grid.getD y []).length) ∧
  ∀ x y,
    (g'.get_cell_from_coordinate x y).cell_type = (g.get_cell_from_coordinate x y).cell_type ∧
    (g'.get_cell_from_coordinate x y).x_position = (g.get_cell_from_coordinate x y).x_position ∧
    (g'.get_cell_from_coordinate x y).y_position = (g.get_cell_from_coordinate x y).y_position ∧
    (g'.get_cell_from_coordinate x y).highlighted = (g.get_cell_from_coordinate x y).highlighted

/-- All in-bounds coordinates of a grid. -/
def allCoords (g : Grid) : List (Nat × Nat) :=
  (List.range g.column_count_x).flatMap (fun x =>
    (List.range g.row_count_y).map (fun y => (x, y)))

/-- Number of in-bounds coordinates not yet in the processed list; the
decreasing measure of the recursion in `populate_cells`. -/
def freshCount (g : Grid) (proc : List (Nat × Nat)) : Nat :=
  ((allCoords g).filter (fun c => decide (c ∉ proc))).length

/-- Concrete 2x2 grid used by the counterexamples and witnesses. -/
def exGrid : Grid := Grid.new 2 2

/-- Toggle a source on at (0,0) of the empty 2x2 grid. -/
def exToggleOn : Grid × List (Nat × Nat) := toggle_source exGrid [] (0, 0)

/-- Run a propagation pass after placing the source at (0,0). -/
def exPassed : Grid := exToggleOn.1.source_cells exToggleOn.2

/-- Toggle the same source off again after the pass. -/
def exToggleOff : Grid × List (Nat × Nat) := toggle_source exPassed exToggleOn.2 (0, 0)

/-- Run a second propagation pass after the source was removed. -/
def exPassedAgain : Grid := exToggleOff.1.source_cells exToggleOff.2

/-- Toggle a barrier onto the (labeled) source cell at (0,0). -/
def exBarrier : Grid × List (Nat × Nat) := toggle_barrier exToggleOn.1 exToggleOn.2 (0, 0)

/-- The pair (grid, processed list) produced by a full propagation pass;
`source_cells` is its first component. -/
def Grid.passResult (g : Grid) (S : List (Nat × Nat)) : Grid × List (Nat × Nat) :=
  Grid.populate_cells (g.row_count_y * g.column_count_x) g (g.source_cells_frontier S) 2
    (g.source_cells_frontier S)

/-! ### Generic list lemmas -/

theorem getD_set {α : Type} (l : List α) (i j : Nat) (a d : α) :
    (l.set i a).getD j d = if i = j ∧ i < l.length then a else l.getD j d := by
  simp only [List.getD_eq_getElem?_getD, List.getElem?_set]
  by_cases hij : i = j
  · subst hij
    by_cases hlen : i < l.length
    · simp [hlen]
    · simp [hlen, List.getElem?_eq_none (Nat.le_of_not_lt hlen)]
  · simp [hij]

/-! ### Cell update lemmas -/

theorem Grid.cellAt_setCellNumber (g : Grid) (x y : Nat) (n : Int) (x' y' : Nat) :
    (g.setCellNumber x y n).get_cell_from_coordinate x' y' =
      if x = x' ∧ y = y' ∧ y < g.grid.length ∧ x < (g.grid.getD y []).length then
        { g.get_cell_from_coordinate x' y' with cell_number := some n }
      else g.get_cell_from_coordinate x' y' := by
  unfold Grid.setCellNumber Grid.get_cell_from_coordinate
  dsimp only
  rw [getD_set]
  by_cases hy : y = y' ∧ y < g.grid.length
  · obtain ⟨hy1, hy2⟩ := hy
    subst hy1
    rw [if_pos ⟨rfl, hy2⟩, getD_set]
    by_cases hx : x = x' ∧ x < (g.grid.getD y []).length
    · obtain ⟨hx1, hx2⟩ := hx
      subst hx1
      rw [if_pos ⟨rfl, hx2⟩, if_pos ⟨rfl, rfl, hy2, hx2⟩]
    · rw [if_neg hx, if_neg (fun h => hx ⟨h.1, h.2.2.2⟩)]
  · rw [if_neg hy, if_neg (fun h => hy ⟨h.2.1, h.2.2.1⟩)]

theorem Grid.cellAt_setCellType (g : Grid) (x y : Nat) (t : CellType) (x' y' : Nat) :
    (g.setCellType x y t).get_cell_from_coordinate x' y' =
      if x = x' ∧ y = y' ∧ y < g.grid.length ∧ x < (g.grid.getD y []).length then
        { g.get_cell_from_coordinate x' y' with cell_type := t }
      else g.get_cell_from_coordinate x' y' := by
  unfold Grid.setCellType Grid.get_cell_from_coordinate
  dsimp only
  rw [getD_set]
  by_cases hy : y = y' ∧ y < g.grid.length
  · obtain ⟨hy1, hy2⟩ := hy
    subst hy1
    rw [if_pos ⟨rfl, hy2⟩, getD_set]
    by_cases hx : x = x' ∧ x < (g.grid.getD y []).length
    · obtain ⟨hx1, hx2⟩ := hx
      subst hx1
      rw [if_pos ⟨rfl, hx2⟩, if_pos ⟨rfl, rfl, hy2, hx2⟩]
    · rw [if_neg hx, if_neg (fun h => hx ⟨h.1, h.2.2.2⟩)]
  · rw [if_neg hy, if_neg (fun h => hy ⟨h.2.1, h.2.2.1⟩)]

/-! ### Skeleton (frame) lemmas -/

theorem sameSkeleton_refl (g : Grid) : sameSkeleton g g :=
  ⟨rfl, rfl, rfl, fun _ => rfl, fun _ _ => ⟨rfl, rfl, rfl, rfl⟩⟩

theorem sameSkeleton_trans (g1 g2 g3 : Grid)
    (h12 : sameSkeleton g1 g2) (h23 : sameSkeleton g2 g3) : sameSkeleton g1 g3 := by
  obtain ⟨a1, b1, c1, d1, e1⟩ := h12
  obtain ⟨a2, b2, c2, d2, e2⟩ := h23
  refine ⟨a2.trans a1, b2.trans b1, c2.trans c1, fun y => (d2 y).trans (d1 y), fun x y => ?_⟩
  obtain ⟨p1, q1, r1, s1⟩ := e1 x y
  obtain ⟨p2, q2, r2, s2⟩ := e2 x y
  exact ⟨p2.trans p1, q2.trans q1, r2.trans r1, s2.trans s1⟩

theorem Grid.setCellNumber_sameSkeleton (g : Grid) (x y : Nat) (n : Int) :
    sameSkeleton g (g.setCellNumber x y n) := by
  refine ⟨rfl, rfl, ?_, ?_, ?_⟩
  · simp [Grid.setCellNumber]
  · intro y'
    show ((g.grid.set y _).getD y' []).length = _
    rw [getD_set]
    split_ifs with h
    · rw [List.length_set, h.1]
    · rfl
  · intro x' y'
    rw [Grid.cellAt_setCellNumber]
    split_ifs with h
    · exact ⟨rfl, rfl, rfl, rfl⟩
    · exact ⟨rfl, rfl, rfl, rfl⟩

theorem processCoord_sameSkeleton (n : Int) (st : Grid × List (Nat × Nat) × List (Nat × Nat))
    (cd : Nat × Nat) : sameSkeleton st.1 (processCoord n st cd).1 := by
  unfold processCoord
  dsimp only
  split_ifs with h
  · exact sameSkeleton_refl _
  · exact Grid.setCellNumber_sameSkeleton st.1 cd.1 cd.2 n

theorem foldl_processCoord_sameSkeleton (n : Int) (l : List (Nat × Nat))
    (st : Grid × List (Nat × Nat) × List (Nat × Nat)) :
    sameSkeleton st.1 (l.foldl (processCoord n) st).1 := by
  induction l generalizing st with
  | nil => exact sameSkeleton_refl _
  | cons a l ih =>
    rw [List.foldl_cons]
    exact sameSkeleton_trans _ _ _ (processCoord_sameSkeleton n st a) (ih _)

theorem populate_cells_sameSkeleton (fuel : Nat) (g : Grid) (u : List (Nat × Nat))
    (n : Int) (proc : List (Nat × Nat)) :
    sameSkeleton g (Grid.populate_cells fuel g u n proc).1 := by
  induction fuel generalizing g u n proc with
  | zero => exact sameSkeleton_refl g
  | succ fuel ih =>
    rw [Grid.populate_cells]
    split_ifs with h
    · exact foldl_processCoord_sameSkeleton n u (g, [], proc)
    · exact sameSkeleton_trans _ _ _
        (foldl_processCoord_sameSkeleton n u (g, [], proc)) (ih _ _ _ _)

theorem source_cells_sameSkeleton (g : Grid) (S : List (Nat × Nat)) :
    sameSkeleton g (g.source_cells S) :=
  populate_cells_sameSkeleton (g.row_count_y * g.column_count_x) g
    (g.source_cells_frontier S) 2 (g.source_cells_frontier S)

/-! ### Barrier cells are never written -/

theorem processCoord_cellAt_barrier (n : Int) (st : Grid × List (Nat × Nat) × List (Nat × Nat))
    (cd c : Nat × Nat)
    (hb : (st.1.get_cell_from_coordinate c.1 c.2).cell_type = CellType.Barrier) :
    (processCoord n st cd).1.get_cell_from_coordinate c.1 c.2 =
      st.1.get_cell_from_coordinate c.1 c.2 := by
  unfold processCoord
  dsimp only
  split_ifs with h
  · rfl
  · rw [Grid.cellAt_setCellNumber]
    split_ifs with h2
    · exfalso
      apply h
      rw [h2.1, h2.2.1]
      exact hb
    · rfl

theorem foldl_processCoord_cellAt_barrier (n : Int) (l : List (Nat × Nat))
    (st : Grid × List (Nat × Nat) × List (Nat × Nat)) (c : Nat × Nat)
    (hb : (st.1.get_cell_from_coordinate c.1 c.2).cell_type = CellType.Barrier) :
    (l.foldl (processCoord n) st).1.get_cell_from_coordinate c.1 c.2 =
      st.1.get_cell_from_coordinate c.1 c.2 := by
  induction l generalizing st with
  | nil => rfl
  | cons a l ih =>
    rw [List.foldl_cons]
    have h1 := processCoord_cellAt_barrier n st a c hb
    rw [ih (processCoord n st a) (by rw [h1]; exact hb), h1]

theorem populate_cells_cellAt_barrier (fuel : Nat) (g : Grid) (u : List (Nat × Nat))
    (n : Int) (proc : List (Nat × Nat)) (c : Nat × Nat)
    (hb : (g.get_cell_from_coordinate c.1 c.2).cell_type = CellType.Barrier) :
    (Grid.populate_cells fuel g u n proc).1.get_cell_from_coordinate c.1 c.2 =
      g.get_cell_from_coordinate c.1 c.2 := by
  induction fuel generalizing g u n proc with
  | zero => rfl
  | succ fuel ih =>
    rw [Grid.populate_cells]
    split_ifs with h
    · exact foldl_processCoord_cellAt_barrier n u (g, [], proc) c hb
    · have h1 := foldl_processCoord_cellAt_barrier n u (g, [], proc) c hb
      rw [ih _ _ _ _ (by rw [h1]; exact hb), h1]

/-! ### The engine only ever writes layer values -/

theorem processCoord_label_or (n : Int) (st : Grid × List (Nat × Nat) × List (Nat × Nat))
    (cd c : Nat × Nat) :
    ((processCoord n st cd).1.get_cell_from_coordinate c.1 c.2).cell_number =
      (st.1.get_cell_from_coordinate c.1 c.2).cell_number ∨
    ((processCoord n st cd).1.get_cell_from_coordinate c.1 c.2).cell_number = some n := by
  unfold processCoord
  dsimp only
  split_ifs with h
  · exact Or.inl rfl
  · rw [Grid.cellAt_setCellNumber]
    split_ifs with h2
    · exact Or.inr rfl
    · exact Or.inl rfl

theorem foldl_processCoord_label_or (n : Int) (l : List (Nat × Nat))
    (st : Grid × List (Nat × Nat) × List (Nat × Nat)) (c : Nat × Nat) :
    ((l.foldl (processCoord n) st).1.get_cell_from_coordinate c.1 c.2).cell_number =
      (st.1.get_cell_from_coordinate c.1 c.2).cell_number ∨
    ((l.foldl (processCoord n) st).1.get_cell_from_coordinate c.1 c.2).cell_number = some n := by
  induction l generalizing st with
  | nil => exact Or.inl rfl
  | cons a l ih =>
    rw [List.foldl_cons]
    rcases ih (processCoord n st a) with h1 | h1
    · rcases processCoord_label_or n st a c with h2 | h2
      · exact Or.inl (h1.trans h2)
      · exact Or.inr (h1.trans h2)
    · exact Or.inr h1

theorem populate_cells_label_ge (fuel : Nat) (g : Grid) (u : List (Nat × Nat))
    (n : Int) (proc : List (Nat × Nat)) (c : Nat × Nat) :
    ((Grid.populate_cells fuel g u n proc).1.get_cell_from_coordinate c.1 c.2).cell_number =
      (g.get_cell_from_coordinate c.1 c.2).cell_number ∨
    ∃ m : Int, n ≤ m ∧
      ((Grid.populate_cells fuel g u n proc).1.get_cell_from_coordinate c.1 c.2).cell_number =
        some m := by
  induction fuel generalizing g u n proc with
  | zero => exact Or.inl rfl
  | succ fuel ih =>
    rw [Grid.populate_cells]
    split_ifs with h
    · rcases foldl_processCoord_label_or n u (g, [], proc) c with h1 | h1
      · exact Or.inl h1
      · exact Or.inr ⟨n, le_refl n, h1⟩
    · rcases ih (u.foldl (processCoord n) (g, [], proc)).1
        (u.foldl (processCoord n) (g, [], proc)).2.1 (n + 1)
        (u.foldl (processCoord n) (g, [], proc)).2.2 with h1 | ⟨m, hm, h1⟩
      · rcases foldl_processCoord_label_or n u (g, [], proc) c with h2 | h2
        · exact Or.inl (h1.trans h2)
        · exact Or.inr ⟨n, le_refl n, h1.trans h2⟩
      · exact Or.inr ⟨m, by omega, h1⟩

/-! ### The empty-frontier pass does nothing -/

theorem populate_cells_nil (fuel : Nat) (g : Grid) (n : Int) (proc : List (Nat × Nat)) :
    Grid.populate_cells fuel g [] n proc = (g, proc) := by
  cases fuel <;> simp [Grid.populate_cells]

/-! ### Claim C1 -/

/-- C1 counterexample: after the sole source at (0,0) of a 2x2 grid is removed
(so the source set is empty) a rerun of propagation leaves the cut-off region
labeled with its previous values; cell (1,1) is not a Source and its distance
is not None, contradicting the claimed reset. -/
theorem c1_counterexample :
    exToggleOff.2 = [] ∧
    (exToggleOff.1.get_cell_from_coordinate 1 1).cell_type ≠ CellType.Source ∧
    (exPassedAgain.get_cell_from_coordinate 1 1).cell_number ≠ none := by
  decide

/-- C1 (amended): a propagation pass performs no reset at all: it never clears
a distance label to None, so any cell labeled before the pass is still labeled
afterwards; consequently, after removing a source that was the sole path to a
region, a rerun leaves that region's stale labels in place rather than None
(a Source cell's Some(1) comes from the toggle operation, not from the pass). -/
theorem c1_pass_never_clears_labels (g : Grid) (S : List (Nat × Nat)) (c : Nat × Nat) (v : Int)
    (h : (g.get_cell_from_coordinate c.1 c.2).cell_number = some v) :
    ∃ w : Int, ((g.source_cells S).get_cell_from_coordinate c.1 c.2).cell_number = some w := by
  unfold Grid.source_cells Grid.source_cells_fueled
  rcases populate_cells_label_ge (g.row_count_y * g.column_count_x) g
      (g.source_cells_frontier S) 2 (g.source_cells_frontier S) c with h1 | ⟨m, _, h1⟩
  · exact ⟨v, h1.trans h⟩
  · exact ⟨m, h1⟩

/-- C1 witness: the cell (1,1) of the passed 2x2 grid is labeled some 3, and
stays labeled after a pass with the empty source set. -/
theorem c1_witness :
    ∃ w : Int, ((exPassed.source_cells []).get_cell_from_coordinate 1 1).cell_number = some w :=
  c1_pass_never_clears_labels exPassed [] (1, 1) 3 (by decide)

/-! ### Claim C2 -/

/-- C2 counterexample: a lone source at (0,0) of a 2x2 grid (a non-empty source
set consistent with the cell kinds) does not have distance Some(1) after the
propagation pass: the pass re-reaches the source through its neighbors and
overwrites its label (with Some(3)). -/
theorem c2_counterexample :
    (exToggleOn.1.get_cell_from_coordinate 0 0).cell_type = CellType.Source ∧
    exToggleOn.2 = [(0, 0)] ∧
    (exPassed.get_cell_from_coordinate 0 0).cell_number ≠ some 1 := by
  decide

/-- C2 (amended): a Source cell's distance is Some(1) immediately after the
toggle that created it, but a propagation pass does not maintain this: the
pass treats a Source cell like any other non-barrier cell, so after a pass the
source's distance is either its previous value or some layer number m with
2 <= m written by the pass. -/
theorem c2_source_distance_after_pass (g : Grid) (S : List (Nat × Nat)) (c : Nat × Nat)
    (hk : (g.get_cell_from_coordinate c.1 c.2).cell_type = CellType.Source) :
    ((g.source_cells S).get_cell_from_coordinate c.1 c.2).cell_number =
      (g.get_cell_from_coordinate c.1 c.2).cell_number ∨
    ∃ m : Int, 2 ≤ m ∧
      ((g.source_cells S).get_cell_from_coordinate c.1 c.2).cell_number = some m := by
  unfold Grid.source_cells Grid.source_cells_fueled
  exact populate_cells_label_ge (g.row_count_y * g.column_count_x) g
    (g.source_cells_frontier S) 2 (g.source_cells_frontier S) c

/-- C2 witness: instantiation at the lone source (0,0) of the 2x2 grid. -/
theorem c2_witness :
    ((exToggleOn.1.source_cells exToggleOn.2).get_cell_from_coordinate 0 0).cell_number =
      (exToggleOn.1.get_cell_from_coordinate 0 0).cell_number ∨
    ∃ m : Int, 2 ≤ m ∧
      ((exToggleOn.1.source_cells exToggleOn.2).get_cell_from_coordinate 0 0).cell_number =
        some m :=
  c2_source_distance_after_pass exToggleOn.1 exToggleOn.2 (0, 0) (by decide)

/-! ### Claim C4 -/

/-- C4 counterexample: toggling the labeled source cell (0,0) to Barrier keeps
its distance label Some(1), so a Barrier cell's distance is not always None. -/
theorem c4_counterexample :
    (exBarrier.1.get_cell_from_coordinate 0 0).cell_type = CellType.Barrier ∧
    (exBarrier.1.get_cell_from_coordinate 0 0).cell_number ≠ none := by
  decide

/-- C4 (amended): the propagation engine never assigns a label to a Barrier
cell: a pass leaves every Barrier cell's distance exactly as it was.  However
a Barrier cell's distance is not always None, because toggling a labeled cell
to Barrier does not clear its stale label. -/
theorem c4_pass_preserves_barrier_distance (g : Grid) (S : List (Nat × Nat)) (c : Nat × Nat)
    (hb : (g.get_cell_from_coordinate c.1 c.2).cell_type = CellType.Barrier) :
    ((g.source_cells S).get_cell_from_coordinate c.1 c.2).cell_number =
      (g.get_cell_from_coordinate c.1 c.2).cell_number := by
  unfold Grid.source_cells Grid.source_cells_fueled
  rw [populate_cells_cellAt_barrier (g.row_count_y * g.column_count_x) g
    (g.source_cells_frontier S) 2 (g.source_cells_frontier S) c hb]

/-- C4 witness: the barrier cell (0,0) keeps its stale Some(1) across a pass. -/
theorem c4_witness :
    ((exBarrier.1.source_cells exBarrier.2).get_cell_from_coordinate 0 0).cell_number =
      (exBarrier.1.get_cell_from_coordinate 0 0).cell_number :=
  c4_pass_preserves_barrier_distance exBarrier.1 exBarrier.2 (0, 0) (by decide)

/-! ### Claim C5 -/

/-- C5 counterexample: a pass with an empty source set does not unlabel the
grid: cell (0,0) of the previously passed 2x2 grid keeps its label. -/
theorem c5_counterexample :
    ((exToggleOff.1.source_cells []).get_cell_from_coordinate 0 0).cell_number ≠ none := by
  decide

/-- C5 (amended): running a propagation pass with an empty source set is a
no-op: the grid is returned unchanged, so cells keep whatever distance labels
they held before the pass instead of being cleared to None. -/
theorem c5_empty_source_pass_is_identity (g : Grid) : g.source_cells [] = g := by
  unfold Grid.source_cells Grid.source_cells_fueled Grid.source_cells_frontier
  rw [List.foldl_nil, populate_cells_nil]

/-! ### Claim C9 -/

/-- C9: a propagation pass mutates only the distance field: for every grid and
source list, every cell's kind, position and highlighted flag, and the grid
dimensions, are unchanged by source_cells. -/
theorem c9_pass_mutates_only_distance (g : Grid) (S : List (Nat × Nat)) :
    (g.source_cells S).row_count_y = g.row_count_y ∧
    (g.source_cells S).column_count_x = g.column_count_x ∧
    ∀ x y,
      ((g.source_cells S).get_cell_from_coordinate x y).cell_type =
        (g.get_cell_from_coordinate x y).cell_type ∧
      ((g.source_cells S).get_cell_from_coordinate x y).x_position =
        (g.get_cell_from_coordinate x y).x_position ∧
      ((g.source_cells S).get_cell_from_coordinate x y).y_position =
        (g.get_cell_from_coordinate x y).y_position ∧
      ((g.source_cells S).get_cell_from_coordinate x y).highlighted =
        (g.get_cell_from_coordinate x y).highlighted := by
  have h := source_cells_sameSkeleton g S
  exact ⟨h.1, h.2.1, h.2.2.2.2⟩

/-! ### Claim C7 -/

theorem ite_singleton_sublist {α : Type} (c : Prop) [Decidable c] (a : α) :
    List.Sublist (if c then [a] else []) [a] := by
  split_ifs
  · exact List.Sublist.refl _
  · exact List.nil_sublist _

/-- Membership in the neighbor list of a cell whose stored position is in
bounds: exactly the in-bounds 4-directionally adjacent coordinates. -/
theorem mem_neighbors_iff (g : Grid) (t : Cell)
    (hx : t.x_position < g.column_count_x) (hy : t.y_position < g.row_count_y)
    (p : Nat × Nat) :
    p ∈ g.get_neighbor_coordinates t ↔
      (adjacent (t.x_position, t.y_position) p ∧ inB g p) := by
  obtain ⟨p1, p2⟩ := p
  unfold Grid.get_neighbor_coordinates
  simp only [List.mem_append, List.mem_singleton, adjacent, inB, Prod.mk.injEq]
  split_ifs with ha hb hc hd he hf hg hh hi hj hk hl hm hn ho <;>
    simp only [List.mem_singleton, List.not_mem_nil, Prod.mk.injEq, false_or, or_false,
      false_iff, iff_false, true_iff, iff_true, not_or, not_and] <;> omega

/-- C7: the neighbor lookup of a cell at an in-bounds position returns exactly
the in-bounds 4-directionally adjacent coordinates (in particular never an
out-of-bounds one), and always in the fixed order left, up, right, down
(the result is a sublist of the left-up-right-down candidate list). -/
theorem c7_neighbor_lookup_spec (g : Grid) (t : Cell)
    (hx : t.x_position < g.column_count_x) (hy : t.y_position < g.row_count_y) :
    (∀ p, p ∈ g.get_neighbor_coordinates t ↔
      (adjacent (t.x_position, t.y_position) p ∧ inB g p)) ∧
    List.Sublist (g.get_neighbor_coordinates t)
      [(t.x_position - 1, t.y_position), (t.x_position, t.y_position - 1),
       (t.x_position + 1, t.y_position), (t.x_position, t.y_position + 1)] := by
  constructor
  · exact mem_neighbors_iff g t hx hy
  · unfold Grid.get_neighbor_coordinates
    exact (((ite_singleton_sublist _ _).append
      (ite_singleton_sublist _ _)).append
        (ite_singleton_sublist _ _)).append (ite_singleton_sublist _ _)

/-- C7 witness: instantiation at the cell stored at (0,0) of the 2x2 grid. -/
theorem c7_witness :
    (∀ p, p ∈ exGrid.get_neighbor_coordinates (exGrid.get_cell_from_coordinate 0 0) ↔
      (adjacent ((exGrid.get_cell_from_coordinate 0 0).x_position,
        (exGrid.get_cell_from_coordinate 0 0).y_position) p ∧ inB exGrid p)) ∧
    List.Sublist (exGrid.get_neighbor_coordinates (exGrid.get_cell_from_coordinate 0 0))
      [((exGrid.get_cell_from_coordinate 0 0).x_position - 1,
        (exGrid.get_cell_from_coordinate 0 0).y_position),
       ((exGrid.get_cell_from_coordinate 0 0).x_position,
        (exGrid.get_cell_from_coordinate 0 0).y_position - 1),
       ((exGrid.get_cell_from_coordinate 0 0).x_position + 1,
        (exGrid.get_cell_from_coordinate 0 0).y_position),
       ((exGrid.get_cell_from_coordinate 0 0).x_position,
        (exGrid.get_cell_from_coordinate 0 0).y_position + 1)] :=
  c7_neighbor_lookup_spec exGrid (exGrid.get_cell_from_coordinate 0 0) (by decide) (by decide)

/-! ### Claim C8 -/

/-- C8: toggling source at an in-bounds position P of a well-formed grid: if P
is currently a Source, P is removed from the source list and its kind becomes
Inactive; otherwise P is appended to the source list, its kind becomes Source,
and its distance becomes Some(1) immediately (no propagation pass involved). -/
theorem c8_toggle_source_spec (g : Grid) (S : List (Nat × Nat)) (p : Nat × Nat)
    (hWF : g.WF) (hin : inB g p) :
    (((g.get_cell_from_coordinate p.1 p.2).cell_type = CellType.Source) →
      ((toggle_source g S p).1.get_cell_from_coordinate p.1 p.2).cell_type =
        CellType.Inactive ∧
      p ∉ (toggle_source g S p).2) ∧
    (((g.get_cell_from_coordinate p.1 p.2).cell_type ≠ CellType.Source) →
      ((toggle_source g S p).1.get_cell_from_coordinate p.1 p.2).cell_type =
        CellType.Source ∧
      ((toggle_source g S p).1.get_cell_from_coordinate p.1 p.2).cell_number = some 1 ∧
      (toggle_source g S p).2 = S ++ [p]) := by
  have hylen : p.2 < g.grid.length := by rw [hWF.1]; exact hin.2
  have hxlen : p.1 < (g.grid.getD p.2 []).length := by
    rw [hWF.2.1 p.2 hin.2]; exact hin.1
  have hylen2 : p.2 < (g.setCellNumber p.1 p.2 1).grid.length := by
    have h := (Grid.setCellNumber_sameSkeleton g p.1 p.2 1).2.2.1
    rw [h]; exact hylen
  have hxlen2 : p.1 < ((g.setCellNumber p.1 p.2 1).grid.getD p.2 []).length := by
    have h := (Grid.setCellNumber_sameSkeleton g p.1 p.2 1).2.2.2.1 p.2
    rw [h]; exact hxlen
  constructor
  · intro hk
    unfold toggle_source
    rw [hk]
    constructor
    · rw [Grid.cellAt_setCellType, if_pos ⟨rfl, rfl, hylen, hxlen⟩]
    · intro hmem
      rw [List.mem_filter] at hmem
      simp at hmem
  · intro hk
    have harm : (toggle_source g S p) =
        ((g.setCellNumber p.1 p.2 1).setCellType p.1 p.2 CellType.Source, S ++ [p]) := by
      unfold toggle_source
      rcases hc : (g.get_cell_from_coordinate p.1 p.2).cell_type
      · rfl
      · rfl
      · rfl
      · exact absurd hc hk
    rw [harm]
    refine ⟨?_, ?_, rfl⟩
    · rw [Grid.cellAt_setCellType, if_pos ⟨rfl, rfl, hylen2, hxlen2⟩]
    · rw [Grid.cellAt_setCellType, if_pos ⟨rfl, rfl, hylen2, hxlen2⟩]
      show ((g.setCellNumber p.1 p.2 1).get_cell_from_coordinate p.1 p.2).cell_number = some 1
      rw [Grid.cellAt_setCellNumber, if_pos ⟨rfl, rfl, hylen, hxlen⟩]

/-- C8 witness: toggling source on at the Inactive cell (0,0) of the empty 2x2
grid and then off again, instantiating both branches of the specification. -/
theorem c8_witness :
    (((exGrid.get_cell_from_coordinate 0 0).cell_type = CellType.Source) →
      ((toggle_source exGrid [] (0, 0)).1.get_cell_from_coordinate 0 0).cell_type =
        CellType.Inactive ∧
      (0, 0) ∉ (toggle_source exGrid [] (0, 0)).2) ∧
    (((exGrid.get_cell_from_coordinate 0 0).cell_type ≠ CellType.Source) →
      ((toggle_source exGrid [] (0, 0)).1.get_cell_from_coordinate 0 0).cell_type =
        CellType.Source ∧
      ((toggle_source exGrid [] (0, 0)).1.get_cell_from_coordinate 0 0).cell_number =
        some 1 ∧
      (toggle_source exGrid [] (0, 0)).2 = [] ++ [(0, 0)]) :=
  c8_toggle_source_spec exGrid [] (0, 0) (by decide) (by decide)

/-! ### Counting and membership helpers for termination -/

theorem mem_foldl_append {α β : Type} (f : β → List α) (l : List β) (a : List α) (c : α) :
    c ∈ l.foldl (fun acc cd => acc ++ f cd) a ↔ c ∈ a ∨ ∃ cd ∈ l, c ∈ f cd := by
  induction l generalizing a with
  | nil => simp
  | cons b l ih =>
    rw [List.foldl_cons, ih]
    simp only [List.mem_append, List.mem_cons]
    constructor
    · rintro (⟨h | h⟩ | ⟨cd, hcd, hc⟩)
      · exact Or.inl h
      · exact Or.inr ⟨b, Or.inl rfl, h⟩
      · exact Or.inr ⟨cd, Or.inr hcd, hc⟩
    · rintro (h | ⟨cd, rfl | hcd, hc⟩)
      · exact Or.inl (Or.inl h)
      · exact Or.inl (Or.inr hc)
      · exact Or.inr ⟨cd, hcd, hc⟩

theorem length_filter_lt_of_mem {α : Type} (l : List α) (p q : α → Bool)
    (himp : ∀ a, q a = true → p a = true) (e : α) (he : e ∈ l)
    (hp : p e = true) (hq : q e = false) :
    (l.filter q).length < (l.filter p).length := by
  induction l with
  | nil => cases he
  | cons a l ih =>
    rcases List.mem_cons.mp he with rfl | he2
    · rw [List.filter_cons, List.filter_cons, if_pos hp, if_neg (by rw [hq]; simp)]
      exact Nat.lt_succ_of_le (List.monotone_filter_right l himp).length_le
    · rw [List.filter_cons, List.filter_cons]
      by_cases hqa : q a = true
      · rw [if_pos hqa, if_pos (himp a hqa)]
        exact Nat.succ_lt_succ (ih he2)
      · rw [if_neg hqa]
        split_ifs with hpa
        · exact Nat.lt_succ_of_lt (ih he2)
        · exact ih he2

theorem mem_allCoords (g : Grid) (c : Nat × Nat) : c ∈ allCoords g ↔ inB g c := by
  obtain ⟨c1, c2⟩ := c
  unfold allCoords inB
  simp only [List.mem_flatMap, List.mem_map, List.mem_range, Prod.mk.injEq]
  constructor
  · rintro ⟨x, hx, y, hy, rfl, rfl⟩
    exact ⟨hx, hy⟩
  · rintro ⟨h1, h2⟩
    exact ⟨c1, h1, c2, h2, rfl, rfl⟩

theorem length_allCoords (g : Grid) :
    (allCoords g).length = g.column_count_x * g.row_count_y := by
  unfold allCoords
  rw [List.length_flatMap]
  simp [Function.comp_def]

theorem freshCount_le (g : Grid) (p1 p2 : List (Nat × Nat))
    (hsub : ∀ c, c ∈ p1 → c ∈ p2) : freshCount g p2 ≤ freshCount g p1 := by
  unfold freshCount
  refine (List.monotone_filter_right _ ?_).length_le
  intro a ha
  simp only [decide_eq_true_eq] at *
  exact fun hm => ha (hsub a hm)

theorem freshCount_lt (g : Grid) (p1 p2 : List (Nat × Nat))
    (hsub : ∀ c, c ∈ p1 → c ∈ p2) (e : Nat × Nat)
    (hin : inB g e) (he1 : e ∉ p1) (he2 : e ∈ p2) :
    freshCount g p2 < freshCount g p1 := by
  unfold freshCount
  refine length_filter_lt_of_mem (allCoords g) _ _ ?_ e
    ((mem_allCoords g e).mpr hin) (by simp [he1]) (by simp [he2])
  intro a ha
  simp only [decide_eq_true_eq] at *
  exact fun hm => ha (hsub a hm)

theorem freshCount_lt_total (g : Grid) (proc : List (Nat × Nat)) (e : Nat × Nat)
    (hin : inB g e) (he : e ∈ proc) :
    freshCount g proc < g.column_count_x * g.row_count_y := by
  unfold freshCount
  rw [← length_allCoords g]
  exact List.length_filter_lt_length_iff_exists.mpr
    ⟨e, (mem_allCoords g e).mpr hin, by simp [he]⟩

/-! ### Skeleton congruence helpers -/

theorem neighbors_congr (g g' : Grid) (h : sameSkeleton g g') (x y : Nat) :
    g'.get_neighbor_coordinates (g'.get_cell_from_coordinate x y) =
      g.get_neighbor_coordinates (g.get_cell_from_coordinate x y) := by
  obtain ⟨hr, hc, _, _, hcell⟩ := h
  obtain ⟨_, hx, hy, _⟩ := hcell x y
  unfold Grid.get_neighbor_coordinates
  rw [hr, hc, hx, hy]

theorem WF_of_sameSkeleton (g g' : Grid) (hWF : g.WF) (h : sameSkeleton g g') :
    g'.WF := by
  obtain ⟨hr, hc, hlen, hrow, hcell⟩ := h
  refine ⟨?_, ?_, ?_⟩
  · rw [hlen, hr]
    exact hWF.1
  · intro y hy
    rw [hrow y, hc]
    exact hWF.2.1 y (by rw [hr] at hy; exact hy)
  · intro y hy x hx
    obtain ⟨_, px, py, _⟩ := hcell x y
    rw [px, py]
    exact hWF.2.2 y (by rw [hr] at hy; exact hy) x (by rw [hc] at hx; exact hx)

theorem allCoords_congr (g g' : Grid) (h : sameSkeleton g g') :
    allCoords g' = allCoords g := by
  unfold allCoords
  rw [h.1, h.2.1]

theorem freshCount_congr (g g' : Grid) (h : sameSkeleton g g')
    (proc : List (Nat × Nat)) : freshCount g' proc = freshCount g proc := by
  unfold freshCount
  rw [allCoords_congr g g' h]

theorem inB_congr (g g' : Grid) (h : sameSkeleton g g') (c : Nat × Nat)
    (hc : inB g c) : inB g' c :=
  ⟨by rw [h.2.1]; exact hc.1, by rw [h.1]; exact hc.2⟩

theorem mem_neighbors_wf (g : Grid) (hWF : g.WF) (c : Nat × Nat) (hin : inB g c)
    (p : Nat × Nat) :
    p ∈ g.get_neighbor_coordinates (g.get_cell_from_coordinate c.1 c.2) ↔
      adjacent c p ∧ inB g p := by
  obtain ⟨c1, c2⟩ := c
  obtain ⟨px, py⟩ := hWF.2.2 c2 hin.2 c1 hin.1
  rw [mem_neighbors_iff g _ (by rw [px]; exact hin.1) (by rw [py]; exact hin.2), px, py]

/-! ### The push loop appends the same fresh block to both lists -/

theorem pushNeighbors_spec (nbrs : List (Nat × Nat)) (nu pr : List (Nat × Nat)) :
    ∃ ext, pushNeighbors nbrs (nu, pr) = (nu ++ ext, pr ++ ext) ∧
      ∀ e ∈ ext, e ∈ nbrs ∧ e ∉ nu ∧ e ∉ pr := by
  induction nbrs generalizing nu pr with
  | nil => exact ⟨[], by simp [pushNeighbors], by simp⟩
  | cons a nbrs ih =>
    have hstep : pushNeighbors (a :: nbrs) (nu, pr) =
        pushNeighbors nbrs (if a ∈ nu ∨ a ∈ pr then (nu, pr) else (nu ++ [a], pr ++ [a])) := by
      unfold pushNeighbors
      rw [List.foldl_cons]
    rw [hstep]
    split_ifs with h
    · obtain ⟨ext, h1, h2⟩ := ih nu pr
      exact ⟨ext, h1, fun e he =>
        ⟨List.mem_cons_of_mem a (h2 e he).1, (h2 e he).2.1, (h2 e he).2.2⟩⟩
    · push_neg at h
      obtain ⟨ext, h1, h2⟩ := ih (nu ++ [a]) (pr ++ [a])
      refine ⟨a :: ext, ?_, ?_⟩
      · rw [h1]
        simp
      · intro e he
        rcases List.mem_cons.mp he with rfl | he2
        · exact ⟨List.mem_cons_self _ _, h.1, h.2⟩
        · obtain ⟨hm, hn1, hn2⟩ := h2 e he2
          exact ⟨List.mem_cons_of_mem a hm,
            fun hx => hn1 (List.mem_append_left _ hx),
            fun hx => hn2 (List.mem_append_left _ hx)⟩

theorem processCoord_state (n : Int) (st : Grid × List (Nat × Nat) × List (Nat × Nat))
    (cd : Nat × Nat) :
    ∃ ext, (processCoord n st cd).2.1 = st.2.1 ++ ext ∧
      (processCoord n st cd).2.2 = st.2.2 ++ ext ∧
      ∀ e ∈ ext,
        ((st.1.get_cell_from_coordinate cd.1 cd.2).cell_type ≠ CellType.Barrier ∧
          e ∈ st.1.get_neighbor_coordinates (st.1.get_cell_from_coordinate cd.1 cd.2)) ∧
        e ∉ st.2.1 ∧ e ∉ st.2.2 := by
  unfold processCoord
  dsimp only
  split_ifs with h
  · exact ⟨[], by simp, by simp, by simp⟩
  · have hn := neighbors_congr st.1 (st.1.setCellNumber cd.1 cd.2 n)
      (Grid.setCellNumber_sameSkeleton st.1 cd.1 cd.2 n) cd.1 cd.2
    obtain ⟨ext, h1, h2⟩ := pushNeighbors_spec
      ((st.1.setCellNumber cd.1 cd.2 n).get_neighbor_coordinates
        ((st.1.setCellNumber cd.1 cd.2 n).get_cell_from_coordinate cd.1 cd.2))
      st.2.1 st.2.2
    refine ⟨ext, ?_, ?_, ?_⟩
    · rw [h1]
    · rw [h1]
    · intro e he
      obtain ⟨hm, hn1, hn2⟩ := h2 e he
      rw [hn] at hm
      exact ⟨⟨h, hm⟩, hn1, hn2⟩

theorem foldl_processCoord_state (n : Int) (l : List (Nat × Nat))
    (st : Grid × List (Nat × Nat) × List (Nat × Nat)) :
    ∃ ext, (l.foldl (processCoord n) st).2.1 = st.2.1 ++ ext ∧
      (l.foldl (processCoord n) st).2.2 = st.2.2 ++ ext ∧
      ∀ e ∈ ext, (∃ cd ∈ l,
          (st.1.get_cell_from_coordinate cd.1 cd.2).cell_type ≠ CellType.Barrier ∧
          e ∈ st.1.get_neighbor_coordinates (st.1.get_cell_from_coordinate cd.1 cd.2)) ∧
        e ∉ st.2.1 ∧ e ∉ st.2.2 := by
  induction l generalizing st with
  | nil => exact ⟨[], by simp, by simp, by simp⟩
  | cons a l ih =>
    rw [List.foldl_cons]
    obtain ⟨ext1, p1, p2, p3⟩ := processCoord_state n st a
    obtain ⟨ext2, q1, q2, q3⟩ := ih (processCoord n st a)
    have hsk := processCoord_sameSkeleton n st a
    refine ⟨ext1 ++ ext2, ?_, ?_, ?_⟩
    · rw [q1, p1, List.append_assoc]
    · rw [q2, p2, List.append_assoc]
    · intro e he
      rcases List.mem_append.mp he with he1 | he2
      · obtain ⟨⟨hb, hm⟩, hn1, hn2⟩ := p3 e he1
        exact ⟨⟨a, List.mem_cons_self a l, hb, hm⟩, hn1, hn2⟩
      · obtain ⟨⟨cd, hcd, hb, hm⟩, hn1, hn2⟩ := q3 e he2
        have ht := (hsk.2.2.2.2 cd.1 cd.2).1
        have hnb := neighbors_congr st.1 (processCoord n st a).1 hsk cd.1 cd.2
        refine ⟨⟨cd, List.mem_cons_of_mem a hcd, ?_, ?_⟩, ?_, ?_⟩
        · rw [← ht]; exact hb
        · rw [← hnb]; exact hm
        · rw [p1] at hn1
          exact fun hx => hn1 (List.mem_append_left _ hx)
        · rw [p2] at hn2
          exact fun hx => hn2 (List.mem_append_left _ hx)

/-! ### Unfolding and fuel stability of the recursion -/

theorem populate_cells_succ (fuel : Nat) (g : Grid) (u : List (Nat × Nat)) (n : Int)
    (proc : List (Nat × Nat)) :
    Grid.populate_cells (fuel + 1) g u n proc =
      Grid.populate_cells fuel (u.foldl (processCoord n) (g, [], proc)).1
        (u.foldl (processCoord n) (g, [], proc)).2.1 (n + 1)
        (u.foldl (processCoord n) (g, [], proc)).2.2 := by
  rw [Grid.populate_cells]
  split_ifs with h
  · rw [h, populate_cells_nil]
  · rfl

theorem populate_cells_stable (fuel1 : Nat) :
    ∀ (fuel2 : Nat) (g : Grid) (u proc : List (Nat × Nat)) (n : Int),
    g.WF → (∀ c ∈ u, inB g c) → (∀ c ∈ proc, inB g c) → (∀ c ∈ u, c ∈ proc) →
    (freshCount g proc < fuel1 ∨ u = []) → (freshCount g proc < fuel2 ∨ u = []) →
    Grid.populate_cells fuel1 g u n proc = Grid.populate_cells fuel2 g u n proc := by
  induction fuel1 with
  | zero =>
    intro fuel2 g u proc n hWF hu hproc hsub hf1 hf2
    have hu0 : u = [] := by
      rcases hf1 with h | h
      · omega
      · exact h
    rw [hu0, populate_cells_nil, populate_cells_nil]
  | succ fuel1 ih =>
    intro fuel2 g u proc n hWF hu hproc hsub hf1 hf2
    by_cases hu0 : u = []
    · rw [hu0, populate_cells_nil, populate_cells_nil]
    · have hfr1 : freshCount g proc < fuel1 + 1 := by tauto
      have hfr2 : freshCount g proc < fuel2 := by tauto
      obtain ⟨fuel2', rfl⟩ : ∃ m, fuel2 = m + 1 := ⟨fuel2 - 1, by omega⟩
      rw [populate_cells_succ, populate_cells_succ]
      obtain ⟨ext, p1, p2, p3⟩ := foldl_processCoord_state n u (g, [], proc)
      have hsk := foldl_processCoord_sameSkeleton n u (g, [], proc)
      have hWF2 : (u.foldl (processCoord n) (g, [], proc)).1.WF :=
        WF_of_sameSkeleton g _ hWF hsk
      have hextb : ∀ e ∈ ext, inB g e := by
        intro e he
        obtain ⟨⟨cd, hcd, hb, hm⟩, _, _⟩ := p3 e he
        exact ((mem_neighbors_wf g hWF cd (hu cd hcd) e).mp hm).2
      have hfc := freshCount_congr g _ hsk (proc ++ ext)
      simp only [List.nil_append] at p1
      rcases hext : ext with _ | ⟨e, ext'⟩
      · subst hext
        simp only [List.append_nil] at p1 p2
        exact ih fuel2' _ _ _ (n + 1) hWF2
          (by rw [p1]; intro c hc; cases hc)
          (by rw [p2]; intro c hc; exact inB_congr g _ hsk c (hproc c hc))
          (by rw [p1]; intro c hc; cases hc)
          (Or.inr p1) (Or.inr p1)
      · subst hext
        have he : e ∈ e :: ext' := List.mem_cons_self e ext'
        obtain ⟨⟨cd, hcd, hb, hm⟩, hn1, hn2⟩ := p3 e he
        have hlt : freshCount g (proc ++ e :: ext') < freshCount g proc :=
          freshCount_lt g proc (proc ++ e :: ext')
            (fun c hc => List.mem_append_left _ hc) e (hextb e he) hn2
            (List.mem_append_right _ he)
        refine ih fuel2' _ _ _ (n + 1) hWF2 ?_ ?_ ?_ ?_ ?_
        · rw [p1]
          intro c hc
          exact inB_congr g _ hsk c (hextb c hc)
        · rw [p2]
          intro c hc
          rcases List.mem_append.mp hc with hc1 | hc1
          · exact inB_congr g _ hsk c (hproc c hc1)
          · exact inB_congr g _ hsk c (hextb c hc1)
        · rw [p1, p2]
          intro c hc
          exact List.mem_append_right _ hc
        · rw [p2, hfc]
          exact Or.inl (by omega)
        · rw [p2, hfc]
          exact Or.inl (by omega)

/-! ### Frontier membership -/

theorem mem_source_cells_frontier (g : Grid) (S : List (Nat × Nat)) (c : Nat × Nat) :
    c ∈ g.source_cells_frontier S ↔
      ∃ s ∈ S, c ∈ g.get_neighbor_coordinates (g.get_cell_from_coordinate s.1 s.2) := by
  unfold Grid.source_cells_frontier
  rw [mem_foldl_append]
  simp

theorem frontier_inB (g : Grid) (S : List (Nat × Nat)) (hWF : g.WF)
    (hS : ∀ c ∈ S, inB g c) :
    ∀ c ∈ g.source_cells_frontier S, inB g c ∧ ∃ s ∈ S, adjacent s c := by
  intro c hc
  obtain ⟨s, hs, hm⟩ := (mem_source_cells_frontier g S c).mp hc
  have h := (mem_neighbors_wf g hWF s (hS s hs) c).mp hm
  exact ⟨h.2, s, hs, h.1⟩

/-! ### Claim C6 -/

/-- C6: every propagation pass terminates within `rows * columns` frontier
layers: for a well-formed grid and an in-bounds source set, running the
layered recursion with any extra fuel beyond `rows * columns` changes nothing
(the processed set only grows, is bounded by the number of grid cells, and
each layer adds at least one new processed cell). -/
theorem c6_propagation_pass_terminates (g : Grid) (S : List (Nat × Nat))
    (hWF : g.WF) (hS : ∀ c ∈ S, inB g c) (k : Nat) :
    g.source_cells_fueled S (g.row_count_y * g.column_count_x + k) = g.source_cells S := by
  unfold Grid.source_cells Grid.source_cells_fueled
  congr 1
  by_cases hF : g.source_cells_frontier S = []
  · rw [hF, populate_cells_nil, populate_cells_nil]
  · obtain ⟨e, he⟩ := List.exists_mem_of_ne_nil _ hF
    have hin := (frontier_inB g S hWF hS e he).1
    have hlt : freshCount g (g.source_cells_frontier S) <
        g.row_count_y * g.column_count_x := by
      have h := freshCount_lt_total g (g.source_cells_frontier S) e hin he
      rw [Nat.mul_comm g.row_count_y g.column_count_x]
      exact h
    exact populate_cells_stable _ _ g _ _ 2 hWF
      (fun c hc => (frontier_inB g S hWF hS c hc).1)
      (fun c hc => (frontier_inB g S hWF hS c hc).1)
      (fun c hc => hc)
      (Or.inl (by omega)) (Or.inl hlt)

/-- C6 witness: one extra unit of fuel changes nothing on the 2x2 example. -/
theorem c6_witness :
    exToggleOn.1.source_cells_fueled exToggleOn.2
      (exToggleOn.1.row_count_y * exToggleOn.1.column_count_x + 1) =
    exToggleOn.1.source_cells exToggleOn.2 :=
  c6_propagation_pass_terminates exToggleOn.1 exToggleOn.2 (by decide) (by decide) 1

/-! ### More congruence and inversion helpers for the BFS proof -/

theorem sameSkeleton_symm (g g' : Grid) (h : sameSkeleton g g') : sameSkeleton g' g := by
  obtain ⟨a, b, c, d, e⟩ := h
  exact ⟨a.symm, b.symm, c.symm, fun y => (d y).symm, fun x y =>
    ⟨(e x y).1.symm, (e x y).2.1.symm, (e x y).2.2.1.symm, (e x y).2.2.2.symm⟩⟩

theorem PathTo_congr (g g' : Grid) (h : sameSkeleton g g') (S : List (Nat × Nat))
    (c : Nat × Nat) (n : Nat) (hp : PathTo g S c n) : PathTo g' S c n := by
  induction hp with
  | src hc => exact PathTo.src hc
  | step hp hadj hx hy hb ih =>
    exact PathTo.step ih hadj (by rw [h.2.1]; exact hx) (by rw [h.1]; exact hy)
      (by rw [(h.2.2.2.2 _ _).1]; exact hb)

theorem Enq_congr (g g' : Grid) (h : sameSkeleton g g') (S : List (Nat × Nat))
    (k : Nat) (c : Nat × Nat) (he : Enq g S k c) : Enq g' S k c := by
  obtain ⟨b, hp, hadj⟩ := he
  exact ⟨b, PathTo_congr g g' h S b k hp, hadj⟩

theorem PathTo_zero_mem (g : Grid) (S : List (Nat × Nat)) (c : Nat × Nat)
    (h : PathTo g S c 0) : c ∈ S := by
  cases h with
  | src hc => exact hc

theorem PathTo_succ_nonbarrier (g : Grid) (S : List (Nat × Nat)) (c : Nat × Nat) (n : Nat)
    (h : PathTo g S c (n + 1)) :
    (g.get_cell_from_coordinate c.1 c.2).cell_type ≠ CellType.Barrier := by
  cases h with
  | step hp hadj hx hy hb => exact hb

theorem Grid.setCellType_preserves_WF (g : Grid) (x y : Nat) (t : CellType)
    (hWF : g.WF) : (g.setCellType x y t).WF := by
  have hlen : (g.setCellType x y t).grid.length = g.grid.length := by
    simp [Grid.setCellType]
  have hrow : ∀ y', ((g.setCellType x y t).grid.getD y' []).length =
      (g.grid.getD y' []).length := by
    intro y'
    show ((g.grid.set y _).getD y' []).length = _
    rw [getD_set]
    split_ifs with h
    · rw [List.length_set, h.1]
    · rfl
  refine ⟨by rw [hlen]; exact hWF.1, ?_, ?_⟩
  · intro y' hy'
    rw [hrow y']
    exact hWF.2.1 y' hy'
  · intro y' hy' x' hx'
    rw [Grid.cellAt_setCellType]
    split_ifs with h
    · exact hWF.2.2 y' hy' x' hx'
    · exact hWF.2.2 y' hy' x' hx'

/-! ### Per-coordinate write behavior of the layer loop -/

theorem processCoord_cellAt_ne (n : Int) (st : Grid × List (Nat × Nat) × List (Nat × Nat))
    (cd c : Nat × Nat) (hne : ¬(cd.1 = c.1 ∧ cd.2 = c.2)) :
    (processCoord n st cd).1.get_cell_from_coordinate c.1 c.2 =
      st.1.get_cell_from_coordinate c.1 c.2 := by
  unfold processCoord
  dsimp only
  split_ifs with h
  · rfl
  · rw [Grid.cellAt_setCellNumber, if_neg (fun hcon => hne ⟨hcon.1, hcon.2.1⟩)]

theorem foldl_processCoord_cellAt_notmem (n : Int) (l : List (Nat × Nat))
    (st : Grid × List (Nat × Nat) × List (Nat × Nat)) (c : Nat × Nat) (hc : c ∉ l) :
    (l.foldl (processCoord n) st).1.get_cell_from_coordinate c.1 c.2 =
      st.1.get_cell_from_coordinate c.1 c.2 := by
  induction l generalizing st with
  | nil => rfl
  | cons a l ih =>
    rw [List.foldl_cons]
    have hne : ¬(a.1 = c.1 ∧ a.2 = c.2) := by
      intro hcon
      exact hc (by
        have : a = c := Prod.ext hcon.1 hcon.2
        rw [← this]
        exact List.mem_cons_self a l)
    rw [ih (processCoord n st a) (fun hx => hc (List.mem_cons_of_mem a hx)),
      processCoord_cellAt_ne n st a c hne]

theorem processCoord_label_write (n : Int) (st : Grid × List (Nat × Nat) × List (Nat × Nat))
    (cd : Nat × Nat) (hWF : st.1.WF) (hin : inB st.1 cd)
    (hb : (st.1.get_cell_from_coordinate cd.1 cd.2).cell_type ≠ CellType.Barrier) :
    ((processCoord n st cd).1.get_cell_from_coordinate cd.1 cd.2).cell_number = some n := by
  have hylen : cd.2 < st.1.grid.length := by rw [hWF.1]; exact hin.2
  have hxlen : cd.1 < (st.1.grid.getD cd.2 []).length := by
    rw [hWF.2.1 cd.2 hin.2]; exact hin.1
  unfold processCoord
  dsimp only
  rw [if_neg hb]
  dsimp only
  rw [Grid.cellAt_setCellNumber, if_pos ⟨rfl, rfl, hylen, hxlen⟩]

theorem foldl_processCoord_label_mem (n : Int) (l : List (Nat × Nat))
    (st : Grid × List (Nat × Nat) × List (Nat × Nat)) (c : Nat × Nat)
    (hWF : st.1.WF) (hin : inB st.1 c) (hmem : c ∈ l)
    (hb : (st.1.get_cell_from_coordinate c.1 c.2).cell_type ≠ CellType.Barrier) :
    ((l.foldl (processCoord n) st).1.get_cell_from_coordinate c.1 c.2).cell_number = some n := by
  induction l generalizing st with
  | nil => cases hmem
  | cons a l ih =>
    rw [List.foldl_cons]
    have hsk := processCoord_sameSkeleton n st a
    have hWF2 := WF_of_sameSkeleton st.1 _ hWF hsk
    have hin2 : inB (processCoord n st a).1 c := inB_congr st.1 _ hsk c hin
    have hb2 : ((processCoord n st a).1.get_cell_from_coordinate c.1 c.2).cell_type ≠
        CellType.Barrier := by
      rw [(hsk.2.2.2.2 c.1 c.2).1]
      exact hb
    by_cases hcl : c ∈ l
    · exact ih (processCoord n st a) hWF2 hin2 hcl hb2
    · have hca : c = a := by
        rcases List.mem_cons.mp hmem with h | h
        · exact h
        · exact absurd h hcl
      subst hca
      rw [foldl_processCoord_cellAt_notmem n l (processCoord n st c) c hcl]
      exact processCoord_label_write n st c hWF hin hb

/-! ### Every neighbor of a processed non-barrier cell ends up enqueued -/

theorem pushNeighbors_covers (nbrs : List (Nat × Nat)) (nu pr : List (Nat × Nat)) :
    ∀ e ∈ nbrs, e ∈ (pushNeighbors nbrs (nu, pr)).1 ∨ e ∈ (pushNeighbors nbrs (nu, pr)).2 := by
  induction nbrs generalizing nu pr with
  | nil => intro e he; cases he
  | cons a nbrs ih =>
    have hstep : pushNeighbors (a :: nbrs) (nu, pr) =
        pushNeighbors nbrs (if a ∈ nu ∨ a ∈ pr then (nu, pr) else (nu ++ [a], pr ++ [a])) := by
      unfold pushNeighbors
      rw [List.foldl_cons]
    intro e he
    rw [hstep]
    split_ifs with h
    · rcases List.mem_cons.mp he with rfl | he2
      · obtain ⟨ext, h1, _⟩ := pushNeighbors_spec nbrs nu pr
        rw [h1]
        rcases h with h | h
        · exact Or.inl (List.mem_append_left _ h)
        · exact Or.inr (List.mem_append_left _ h)
      · exact ih nu pr e he2
    · rcases List.mem_cons.mp he with rfl | he2
      · obtain ⟨ext, h1, _⟩ := pushNeighbors_spec nbrs (nu ++ [e]) (pr ++ [e])
        rw [h1]
        exact Or.inl (List.mem_append_left _ (List.mem_append_right _ (List.mem_singleton.mpr rfl)))
      · exact ih (nu ++ [a]) (pr ++ [a]) e he2

theorem processCoord_covers (n : Int) (st : Grid × List (Nat × Nat) × List (Nat × Nat))
    (cd : Nat × Nat)
    (hb : (st.1.get_cell_from_coordinate cd.1 cd.2).cell_type ≠ CellType.Barrier) :
    ∀ e ∈ st.1.get_neighbor_coordinates (st.1.get_cell_from_coordinate cd.1 cd.2),
      e ∈ (processCoord n st cd).2.1 ∨ e ∈ (processCoord n st cd).2.2 := by
  intro e he
  have hn := neighbors_congr st.1 (st.1.setCellNumber cd.1 cd.2 n)
    (Grid.setCellNumber_sameSkeleton st.1 cd.1 cd.2 n) cd.1 cd.2
  unfold processCoord
  dsimp only
  rw [if_neg hb]
  dsimp only
  exact pushNeighbors_covers _ st.2.1 st.2.2 e (by rw [hn]; exact he)

theorem foldl_processCoord_covers (n : Int) (l : List (Nat × Nat))
    (st : Grid × List (Nat × Nat) × List (Nat × Nat)) (cd : Nat × Nat)
    (hcd : cd ∈ l)
    (hb : (st.1.get_cell_from_coordinate cd.1 cd.2).cell_type ≠ CellType.Barrier) :
    ∀ e ∈ st.1.get_neighbor_coordinates (st.1.get_cell_from_coordinate cd.1 cd.2),
      e ∈ (l.foldl (processCoord n) st).2.1 ∨ e ∈ (l.foldl (processCoord n) st).2.2 := by
  induction l generalizing st with
  | nil => cases hcd
  | cons a l ih =>
    intro e he
    rw [List.foldl_cons]
    have hsk := processCoord_sameSkeleton n st a
    rcases List.mem_cons.mp hcd with rfl | hcd2
    · have hcov := processCoord_covers n st cd hb e he
      obtain ⟨ext, p1, p2, _⟩ := foldl_processCoord_state n l (processCoord n st cd)
      rw [p1, p2]
      rcases hcov with h | h
      · exact Or.inl (List.mem_append_left _ h)
      · exact Or.inr (List.mem_append_left _ h)
    · have hb2 : ((processCoord n st a).1.get_cell_from_coordinate cd.1 cd.2).cell_type ≠
          CellType.Barrier := by
        rw [(hsk.2.2.2.2 cd.1 cd.2).1]
        exact hb
      have he2 : e ∈ (processCoord n st a).1.get_neighbor_coordinates
          ((processCoord n st a).1.get_cell_from_coordinate cd.1 cd.2) := by
        rw [neighbors_congr st.1 _ hsk cd.1 cd.2]
        exact he
      exact ih (processCoord n st a) hcd2 hb2 e he2

/-! ### The main BFS invariant of the layered recursion -/

theorem populate_cells_bfs (fuel : Nat) :
    ∀ (g : Grid) (u proc : List (Nat × Nat)) (k : Nat) (S : List (Nat × Nat)),
    g.WF →
    (∀ c ∈ proc, inB g c) →
    (∀ c ∈ u, c ∈ proc) →
    (∀ c ∈ u, inB g c ∧ Enq g S k c) →
    (∀ c ∈ proc, c ∉ u →
      (g.get_cell_from_coordinate c.1 c.2).cell_type ≠ CellType.Barrier →
      ∃ j : Nat, j + 1 ≤ k ∧
        (g.get_cell_from_coordinate c.1 c.2).cell_number = some ((j : Int) + 2)) →
    (freshCount g proc < fuel ∨ u = []) →
    (∀ c ∈ proc, c ∈ (Grid.populate_cells fuel g u ((k : Int) + 2) proc).2) ∧
    (∀ c ∈ (Grid.populate_cells fuel g u ((k : Int) + 2) proc).2, inB g c) ∧
    (∀ c ∈ proc, c ∉ u →
      (Grid.populate_cells fuel g u ((k : Int) + 2) proc).1.get_cell_from_coordinate c.1 c.2 =
        g.get_cell_from_coordinate c.1 c.2) ∧
    (∀ c ∈ u, (g.get_cell_from_coordinate c.1 c.2).cell_type ≠ CellType.Barrier →
      ((Grid.populate_cells fuel g u ((k : Int) + 2) proc).1.get_cell_from_coordinate
        c.1 c.2).cell_number = some ((k : Int) + 2)) ∧
    (∀ c ∈ (Grid.populate_cells fuel g u ((k : Int) + 2) proc).2,
      (c ∉ proc ∨ c ∈ u) →
      (g.get_cell_from_coordinate c.1 c.2).cell_type ≠ CellType.Barrier →
      ∃ j : Nat, k ≤ j ∧
        ((Grid.populate_cells fuel g u ((k : Int) + 2) proc).1.get_cell_from_coordinate
          c.1 c.2).cell_number = some ((j : Int) + 2) ∧
        Enq g S j c ∧
        ∀ d, adjacent c d → inB g d →
          d ∈ (Grid.populate_cells fuel g u ((k : Int) + 2) proc).2 ∧
          ((g.get_cell_from_coordinate d.1 d.2).cell_type ≠ CellType.Barrier →
            ∃ j2 : Nat, j2 ≤ j + 1 ∧
              ((Grid.populate_cells fuel g u ((k : Int) + 2) proc).1.get_cell_from_coordinate
                d.1 d.2).cell_number = some ((j2 : Int) + 2))) := by
  induction fuel with
  | zero =>
    intro g u proc k S hWF hproc hsub hu hprev hfuel
    have hu0 : u = [] := by
      rcases hfuel with h | h
      · omega
      · exact h
    subst hu0
    rw [populate_cells_nil]
    refine ⟨fun c hc => hc, hproc, fun c hc hcu => rfl,
      fun c hc => absurd hc (List.not_mem_nil c), ?_⟩
    intro c hc hor hb
    rcases hor with h | h
    · exact absurd hc h
    · exact absurd h (List.not_mem_nil c)
  | succ fuel ih =>
    intro g u proc k S hWF hproc hsub hu hprev hfuel
    by_cases hu0 : u = []
    · subst hu0
      rw [populate_cells_nil]
      refine ⟨fun c hc => hc, hproc, fun c hc hcu => rfl,
        fun c hc => absurd hc (List.not_mem_nil c), ?_⟩
      intro c hc hor hb
      rcases hor with h | h
      · exact absurd hc h
      · exact absurd h (List.not_mem_nil c)
    · have hfuelL : freshCount g proc < fuel + 1 := by tauto
      rw [populate_cells_succ]
      have hcast : ((k : Int) + 2) + 1 = (((k + 1 : Nat)) : Int) + 2 := by push_cast; ring
      rw [hcast]
      obtain ⟨ext, p1, p2, p3⟩ := foldl_processCoord_state ((k : Int) + 2) u (g, [], proc)
      dsimp only at p1 p2 p3
      rw [List.nil_append] at p1
      set st := u.foldl (processCoord ((k : Int) + 2)) (g, [], proc) with hst
      have hsk : sameSkeleton g st.1 := foldl_processCoord_sameSkeleton ((k : Int) + 2) u (g, [], proc)
      have hWF2 : st.1.WF := WF_of_sameSkeleton g st.1 hWF hsk
      have hextb : ∀ e ∈ ext, inB g e ∧ Enq g S (k + 1) e := by
        intro e he
        obtain ⟨⟨cd, hcd, hbcd, hmcd⟩, _, hnp⟩ := p3 e he
        obtain ⟨hcdin, hcdEnq⟩ := hu cd hcd
        have hmm := (mem_neighbors_wf g hWF cd hcdin e).mp hmcd
        obtain ⟨b, hpb, hadjb⟩ := hcdEnq
        exact ⟨hmm.2, ⟨cd, PathTo.step hpb hadjb hcdin.1 hcdin.2 hbcd, hmm.1⟩⟩
      have hext_fresh : ∀ e ∈ ext, e ∉ proc := fun e he => (p3 e he).2.2
      have hkind : ∀ c : Nat × Nat, (st.1.get_cell_from_coordinate c.1 c.2).cell_type =
          (g.get_cell_from_coordinate c.1 c.2).cell_type :=
        fun c => (hsk.2.2.2.2 c.1 c.2).1
      have hfold_mem_label : ∀ c ∈ u,
          (g.get_cell_from_coordinate c.1 c.2).cell_type ≠ CellType.Barrier →
          (st.1.get_cell_from_coordinate c.1 c.2).cell_number = some ((k : Int) + 2) :=
        fun c hc hb =>
          foldl_processCoord_label_mem ((k : Int) + 2) u (g, [], proc) c hWF (hu c hc).1 hc hb
      have hfold_frame : ∀ c : Nat × Nat, c ∉ u →
          st.1.get_cell_from_coordinate c.1 c.2 = g.get_cell_from_coordinate c.1 c.2 :=
        fun c hc => foldl_processCoord_cellAt_notmem ((k : Int) + 2) u (g, [], proc) c hc
      have hin22 : ∀ c ∈ proc, c ∈ st.2.2 := by
        rw [p2]
        intro c hc
        exact List.mem_append_left _ hc
      have hnotin21 : ∀ c ∈ proc, c ∉ st.2.1 := by
        rw [p1]
        intro c hc hx
        exact hext_fresh c hx hc
      have hproc2 : ∀ c ∈ st.2.2, inB st.1 c := by
        rw [p2]
        intro c hc
        rcases List.mem_append.mp hc with h | h
        · exact inB_congr g st.1 hsk c (hproc c h)
        · exact inB_congr g st.1 hsk c (hextb c h).1
      have hsub2 : ∀ c ∈ st.2.1, c ∈ st.2.2 := by
        rw [p1, p2]
        intro c hc
        exact List.mem_append_right _ hc
      have hu2 : ∀ c ∈ st.2.1, inB st.1 c ∧ Enq st.1 S (k + 1) c := by
        rw [p1]
        intro c hc
        exact ⟨inB_congr g st.1 hsk c (hextb c hc).1,
          Enq_congr g st.1 hsk S (k + 1) c (hextb c hc).2⟩
      have hprev2 : ∀ c ∈ st.2.2, c ∉ st.2.1 →
          (st.1.get_cell_from_coordinate c.1 c.2).cell_type ≠ CellType.Barrier →
          ∃ j : Nat, j + 1 ≤ k + 1 ∧
            (st.1.get_cell_from_coordinate c.1 c.2).cell_number = some ((j : Int) + 2) := by
        intro c hc hcne hbst
        have hbg : (g.get_cell_from_coordinate c.1 c.2).cell_type ≠ CellType.Barrier := by
          rw [← hkind c]
          exact hbst
        have hcp : c ∈ proc := by
          rw [p2] at hc
          rcases List.mem_append.mp hc with h | h
          · exact h
          · rw [← p1] at h
            exact absurd h hcne
        by_cases hcu : c ∈ u
        · exact ⟨k, le_refl (k + 1), hfold_mem_label c hcu hbg⟩
        · obtain ⟨j, hj1, hj2⟩ := hprev c hcp hcu hbg
          refine ⟨j, by omega, ?_⟩
          rw [hfold_frame c hcu]
          exact hj2
      have hfuel2 : freshCount st.1 st.2.2 < fuel ∨ st.2.1 = [] := by
        rcases hext0 : ext with _ | ⟨e, ext'⟩
        · right
          rw [p1, hext0]
        · left
          rw [freshCount_congr g st.1 hsk, p2, hext0]
          have hein : inB g e := (hextb e (by rw [hext0]; exact List.mem_cons_self e ext')).1
          have henp : e ∉ proc := hext_fresh e (by rw [hext0]; exact List.mem_cons_self e ext')
          have hlt := freshCount_lt g proc (proc ++ e :: ext')
            (fun c hc => List.mem_append_left _ hc) e hein henp
            (List.mem_append_right _ (List.mem_cons_self e ext'))
          omega
      obtain ⟨G1, G2, G3, G4, G5⟩ := ih st.1 st.2.1 st.2.2 (k + 1) S hWF2 hproc2 hsub2 hu2 hprev2 hfuel2
      have hT3 : ∀ c ∈ proc, c ∉ u →
          (Grid.populate_cells fuel st.1 st.2.1 (((k + 1 : Nat)) + 2 : Int) st.2.2).1.get_cell_from_coordinate c.1 c.2 =
            g.get_cell_from_coordinate c.1 c.2 := by
        intro c hc hcu
        rw [G3 c (hin22 c hc) (hnotin21 c hc)]
        exact hfold_frame c hcu
      have hT4 : ∀ c ∈ u, (g.get_cell_from_coordinate c.1 c.2).cell_type ≠ CellType.Barrier →
          ((Grid.populate_cells fuel st.1 st.2.1 (((k + 1 : Nat)) + 2 : Int) st.2.2).1.get_cell_from_coordinate c.1 c.2).cell_number =
            some ((k : Int) + 2) := by
        intro c hc hb
        rw [G3 c (hin22 c (hsub c hc)) (hnotin21 c (hsub c hc))]
        exact hfold_mem_label c hc hb
      refine ⟨?_, ?_, hT3, hT4, ?_⟩
      · intro c hc
        exact G1 c (hin22 c hc)
      · intro c hc
        exact inB_congr st.1 g (sameSkeleton_symm g st.1 hsk) c (G2 c hc)
      · intro c hcR hor hbg
        by_cases hcu : c ∈ u
        · refine ⟨k, le_refl k, hT4 c hcu hbg, (hu c hcu).2, ?_⟩
          intro d hadj hind
          have hdmem : d ∈ st.2.1 ∨ d ∈ st.2.2 := by
            apply foldl_processCoord_covers ((k : Int) + 2) u (g, [], proc) c hcu hbg d
            exact (mem_neighbors_wf g hWF c (hu c hcu).1 d).mpr ⟨hadj, hind⟩
          have hdP : d ∈ (Grid.populate_cells fuel st.1 st.2.1 (((k + 1 : Nat)) + 2 : Int) st.2.2).2 := by
            rcases hdmem with h | h
            · exact G1 d (hsub2 d h)
            · exact G1 d h
          refine ⟨hdP, ?_⟩
          intro hbd
          by_cases hdext : d ∈ st.2.1
          · refine ⟨k + 1, le_refl (k + 1), ?_⟩
            exact G4 d hdext (by rw [hkind d]; exact hbd)
          · have hdproc : d ∈ proc := by
              rcases hdmem with h | h
              · exact absurd h hdext
              · rw [p2] at h
                rcases List.mem_append.mp h with h2 | h2
                · exact h2
                · exact absurd (by rw [p1]; exact h2) hdext
            by_cases hdu : d ∈ u
            · exact ⟨k, by omega, hT4 d hdu hbd⟩
            · obtain ⟨j', hj1, hj2⟩ := hprev d hdproc hdu hbd
              refine ⟨j', by omega, ?_⟩
              rw [hT3 d hdproc hdu]
              exact hj2
        · have hcnp : c ∉ proc := by
            rcases hor with h | h
            · exact h
            · exact absurd h hcu
          have hcst : c ∉ st.2.2 ∨ c ∈ st.2.1 := by
            by_cases h : c ∈ st.2.2
            · right
              rw [p2] at h
              rcases List.mem_append.mp h with h2 | h2
              · exact absurd h2 hcnp
              · rw [p1]
                exact h2
            · left
              exact h
          obtain ⟨j, hjk, hjl, hjE, hjN⟩ := G5 c hcR hcst (by rw [hkind c]; exact hbg)
          refine ⟨j, by omega, hjl,
            Enq_congr st.1 g (sameSkeleton_symm g st.1 hsk) S j c hjE, ?_⟩
          intro d hadj hind
          obtain ⟨hdP, hlab⟩ := hjN d hadj (inB_congr g st.1 hsk d hind)
          exact ⟨hdP, fun hbd => hlab (by rw [hkind d]; exact hbd)⟩

/-! ### The pass specification at the top level -/

theorem pass_processed_spec (g : Grid) (S : List (Nat × Nat)) (hWF : g.WF)
    (hS : ∀ c ∈ S, inB g c) :
    (∀ c ∈ g.source_cells_frontier S, c ∈ (g.passResult S).2) ∧
    (∀ c ∈ (g.passResult S).2, inB g c) ∧
    (∀ c ∈ g.source_cells_frontier S,
      (g.get_cell_from_coordinate c.1 c.2).cell_type ≠ CellType.Barrier →
      ((g.passResult S).1.get_cell_from_coordinate c.1 c.2).cell_number = some 2) ∧
    (∀ c ∈ (g.passResult S).2,
      (g.get_cell_from_coordinate c.1 c.2).cell_type ≠ CellType.Barrier →
      ∃ j : Nat,
        ((g.passResult S).1.get_cell_from_coordinate c.1 c.2).cell_number =
          some ((j : Int) + 2) ∧
        Enq g S j c ∧
        ∀ d, adjacent c d → inB g d →
          d ∈ (g.passResult S).2 ∧
          ((g.get_cell_from_coordinate d.1 d.2).cell_type ≠ CellType.Barrier →
            ∃ j2 : Nat, j2 ≤ j + 1 ∧
              ((g.passResult S).1.get_cell_from_coordinate d.1 d.2).cell_number =
                some ((j2 : Int) + 2))) := by
  have h02 : ((0 : Nat) : Int) + 2 = 2 := by norm_num
  have hF := frontier_inB g S hWF hS
  have hfuel : freshCount g (g.source_cells_frontier S) <
      g.row_count_y * g.column_count_x ∨ g.source_cells_frontier S = [] := by
    by_cases hFn : g.source_cells_frontier S = []
    · exact Or.inr hFn
    · obtain ⟨e, he⟩ := List.exists_mem_of_ne_nil _ hFn
      refine Or.inl ?_
      rw [Nat.mul_comm]
      exact freshCount_lt_total g _ e (hF e he).1 he
  obtain ⟨G1, G2, G3, G4, G5⟩ := populate_cells_bfs (g.row_count_y * g.column_count_x)
    g (g.source_cells_frontier S) (g.source_cells_frontier S) 0 S hWF
    (fun c hc => (hF c hc).1) (fun c hc => hc)
    (fun c hc => ⟨(hF c hc).1, by
      obtain ⟨s, hs, hadj⟩ := (hF c hc).2
      exact ⟨s, PathTo.src hs, hadj⟩⟩)
    (fun c hc hcn => absurd hc hcn)
    hfuel
  rw [h02] at G1 G2 G4 G5
  refine ⟨G1, G2, G4, ?_⟩
  intro c hc hb
  obtain ⟨j, _, hrest⟩ := G5 c hc (Or.symm (Decidable.em (c ∈ g.source_cells_frontier S))) hb
  exact ⟨j, hrest⟩

/-! ### Any path forces a label no later than its length -/

theorem path_min_label (g : Grid) (S : List (Nat × Nat)) (hWF : g.WF)
    (hS : ∀ c ∈ S, inB g c) :
    ∀ (n : Nat) (c : Nat × Nat), PathTo g S c n → 1 ≤ n →
      c ∈ (g.passResult S).2 ∧
      ∃ j : Nat, j + 1 ≤ n ∧
        ((g.passResult S).1.get_cell_from_coordinate c.1 c.2).cell_number =
          some ((j : Int) + 2) := by
  intro n
  induction n using Nat.strong_induction_on with
  | _ n ihn =>
    intro c hpath hn
    obtain ⟨m, rfl⟩ : ∃ m, n = m + 1 := ⟨n - 1, by omega⟩
    cases hpath with
    | @step b _ _ hp hadj hx hy hb =>
      rcases Nat.eq_zero_or_pos m with rfl | hm
      · have hbS := PathTo_zero_mem g S b hp
        have hcF : c ∈ g.source_cells_frontier S := by
          rw [mem_source_cells_frontier]
          exact ⟨b, hbS, (mem_neighbors_wf g hWF b (hS b hbS) c).mpr ⟨hadj, hx, hy⟩⟩
        obtain ⟨G1, G2, G3, G4⟩ := pass_processed_spec g S hWF hS
        refine ⟨G1 c hcF, 0, by omega, ?_⟩
        rw [G3 c hcF hb]
        norm_num
      · obtain ⟨hbP, jb, hjb1, hjb2⟩ := ihn m (by omega) b hp (by omega)
        have hbbar : (g.get_cell_from_coordinate b.1 b.2).cell_type ≠ CellType.Barrier := by
          obtain ⟨m2, rfl⟩ : ∃ m2, m = m2 + 1 := ⟨m - 1, by omega⟩
          exact PathTo_succ_nonbarrier g S b m2 hp
        obtain ⟨G1, G2, G3, G4⟩ := pass_processed_spec g S hWF hS
        obtain ⟨j, hjl, hjE, hjN⟩ := G4 b hbP hbbar
        have hjeq : j = jb := by
          rw [hjb2] at hjl
          have := Option.some.inj hjl
          omega
        obtain ⟨hcP, hlab⟩ := hjN c hadj ⟨hx, hy⟩
        obtain ⟨j2, hj2le, hj2lab⟩ := hlab hb
        exact ⟨hcP, j2, by omega, hj2lab⟩

/-! ### Claim C3 -/

/-- C3: after one propagation pass on a well-formed grid whose source set is
in bounds and consistent with the cell kinds, every non-source, non-barrier
cell that is reachable from some source through non-barrier cells (witnessed
by a shortest 4-directional path of hop count n) has distance exactly n + 1. -/
theorem c3_reachable_distance_minimality (g : Grid) (S : List (Nat × Nat))
    (c : Nat × Nat) (n : Nat)
    (hWF : g.WF) (hS : ∀ s ∈ S, inB g s)
    (hcons : ∀ b1, b1 < g.column_count_x → ∀ b2, b2 < g.row_count_y →
      ((g.get_cell_from_coordinate b1 b2).cell_type = CellType.Source ↔ (b1, b2) ∈ S))
    (hin : inB g c)
    (hksrc : (g.get_cell_from_coordinate c.1 c.2).cell_type ≠ CellType.Source)
    (hkbar : (g.get_cell_from_coordinate c.1 c.2).cell_type ≠ CellType.Barrier)
    (hpath : PathTo g S c n)
    (hmin : ∀ m, PathTo g S c m → n ≤ m) :
    ((g.source_cells S).get_cell_from_coordinate c.1 c.2).cell_number =
      some ((n : Int) + 1) := by
  obtain ⟨c1, c2⟩ := c
  have hc_notS : (c1, c2) ∉ S := fun hcS => hksrc ((hcons c1 hin.1 c2 hin.2).mpr hcS)
  have hn : 1 ≤ n := by
    rcases Nat.eq_zero_or_pos n with rfl | h
    · exact absurd (PathTo_zero_mem g S (c1, c2) hpath) hc_notS
    · exact h
  obtain ⟨hcP, j, hj1, hj2⟩ := path_min_label g S hWF hS n (c1, c2) hpath hn
  obtain ⟨G1, G2, G3, G4⟩ := pass_processed_spec g S hWF hS
  obtain ⟨j', hl', hEnq, _⟩ := G4 (c1, c2) hcP hkbar
  have hjeq : j' = j := by
    rw [hj2] at hl'
    have := Option.some.inj hl'
    omega
  obtain ⟨b, hpb, hadj⟩ := hEnq
  have hpc : PathTo g S (c1, c2) (j' + 1) := PathTo.step hpb hadj hin.1 hin.2 hkbar
  have hmn := hmin (j' + 1) hpc
  have hfin : ((g.passResult S).1.get_cell_from_coordinate c1 c2).cell_number =
      some ((n : Int) + 1) := by
    rw [hj2]
    congr 1
    omega
  exact hfin

/-- C3 witness: in the 2x2 grid with the lone source (0,0), the Inactive cell
(1,0) at shortest hop count 1 is labeled some 2 after the pass. -/
theorem c3_witness :
    ((exToggleOn.1.source_cells [(0, 0)]).get_cell_from_coordinate 1 0).cell_number =
      some (((1 : Nat) : Int) + 1) :=
  c3_reachable_distance_minimality exToggleOn.1 [(0, 0)] (1, 0) 1
    (by decide) (by decide) (by decide) (by decide) (by decide) (by decide)
    (@PathTo.step exToggleOn.1 [(0, 0)] (0, 0) (1, 0) 0
      (@PathTo.src exToggleOn.1 [(0, 0)] (0, 0) (by decide))
      (by decide) (by decide) (by decide) (by decide))
    (by
      intro m hm
      cases hm with
      | src h => exact absurd h (by decide)
      | step hp hadj hx hy hb => omega)

/-! ### Claim C10 -/

/-- C10: toggling barrier at a Source cell makes its kind Barrier but leaves
the source list untouched, so a subsequent propagation pass still builds its
initial frontier from that (now Barrier) coordinate and labels each of its
non-barrier neighbors with distance 2. -/
theorem c10_barrier_toggle_keeps_source_seeding (g : Grid) (S : List (Nat × Nat))
    (p : Nat × Nat)
    (hWF : g.WF) (hS : ∀ c ∈ S, inB g c) (hp : p ∈ S) (hin : inB g p)
    (hk : (g.get_cell_from_coordinate p.1 p.2).cell_type = CellType.Source) :
    ((toggle_barrier g S p).1.get_cell_from_coordinate p.1 p.2).cell_type =
      CellType.Barrier ∧
    (toggle_barrier g S p).2 = S ∧
    ∀ c, adjacent p c → inB g c →
      ((toggle_barrier g S p).1.get_cell_from_coordinate c.1 c.2).cell_type ≠
        CellType.Barrier →
      (((toggle_barrier g S p).1.source_cells (toggle_barrier g S p).2).get_cell_from_coordinate
        c.1 c.2).cell_number = some 2 := by
  have harm : toggle_barrier g S p = (g.setCellType p.1 p.2 CellType.Barrier, S) := by
    unfold toggle_barrier
    rw [hk]
  rw [harm]
  dsimp only
  have hylen : p.2 < g.grid.length := by rw [hWF.1]; exact hin.2
  have hxlen : p.1 < (g.grid.getD p.2 []).length := by
    rw [hWF.2.1 p.2 hin.2]
    exact hin.1
  have hWF2 : (g.setCellType p.1 p.2 CellType.Barrier).WF :=
    Grid.setCellType_preserves_WF g p.1 p.2 CellType.Barrier hWF
  refine ⟨?_, rfl, ?_⟩
  · rw [Grid.cellAt_setCellType, if_pos ⟨rfl, rfl, hylen, hxlen⟩]
  · intro c hadj hinc hbc
    have hS2 : ∀ s ∈ S, inB (g.setCellType p.1 p.2 CellType.Barrier) s := hS
    obtain ⟨G1, G2, G3, G4⟩ :=
      pass_processed_spec (g.setCellType p.1 p.2 CellType.Barrier) S hWF2 hS2
    have hcF : c ∈ (g.setCellType p.1 p.2 CellType.Barrier).source_cells_frontier S := by
      rw [mem_source_cells_frontier]
      exact ⟨p, hp, (mem_neighbors_wf _ hWF2 p hin c).mpr ⟨hadj, hinc⟩⟩
    exact G3 c hcF hbc

/-- C10 witness: toggling barrier onto the source (0,0) of the 2x2 grid keeps
the source list [(0,0)] and the next pass labels its neighbors some 2. -/
theorem c10_witness :
    ((toggle_barrier exToggleOn.1 exToggleOn.2 (0, 0)).1.get_cell_from_coordinate 0 0).cell_type =
      CellType.Barrier ∧
    (toggle_barrier exToggleOn.1 exToggleOn.2 (0, 0)).2 = exToggleOn.2 ∧
    ∀ c, adjacent (0, 0) c → inB exToggleOn.1 c →
      ((toggle_barrier exToggleOn.1 exToggleOn.2 (0, 0)).1.get_cell_from_coordinate
        c.1 c.2).cell_type ≠ CellType.Barrier →
      (((toggle_barrier exToggleOn.1 exToggleOn.2 (0, 0)).1.source_cells
        (toggle_barrier exToggleOn.1 exToggleOn.2 (0, 0)).2).get_cell_from_coordinate
        c.1 c.2).cell_number = some 2 :=
  c10_barrier_toggle_keeps_source_seeding exToggleOn.1 exToggleOn.2 (0, 0)
    (by decide) (by decide) (by decide) (by decide) (by decide)
